import Mathlib

/-!
Shallow embedding of `src/route/RouteManagerBase.py` (class `RouteManagerBase`),
a geographic route dispatcher with a priority-event overlay.

Modelling conventions:
* Python floats used only as opaque coordinates / timestamps are embedded as `Int`:
  the code only compares them and subtracts them, never does float-specific
  arithmetic that the claims depend on.
* Python dicts are embedded as insertion-ordered association lists
  (`List (String × β)`), matching dict iteration order.
* `collections.deque` is embedded as `List` (popleft = head, append = snoc).
* Python exceptions (IndexError, KeyError, ...) are embedded as `Except PyError`.
* `time.time()` / `datetime.now()` are passed in as a single `now : Int` per call.
* The `heapq` heap is embedded as a list kept sorted by due time: `heapify` sorts
  and `heappop` takes the head, which matches heapq observationally (`l[0]` is the
  minimum and pops ascend).
-/

/-- Geographic point (`utils.collections.Location`); compared only by value. -/
structure Location where
  lat : Int
  lng : Int
  deriving Repr, DecidableEq

/-- A priority event `(due_at, Location)`. -/
abbrev Event := Int × Location

/-- Per-origin pool entry (`RoutePoolEntry` dataclass). -/
structure RoutePoolEntry where
  last_access : Int
  queue : List Location
  subroute : List Location
  deriving Repr, DecidableEq

/-- The settings keys the class reads after construction, with Python
`dict.get` semantics: `none` = key absent (default applies), `some none` =
key present holding `None`, `some (some v)` = key present holding a number. -/
structure Settings where
  remove_from_queue_backlog : Option (Option Int)
  init_mode_rounds : Option Int
  deriving Repr, DecidableEq

/-- Python exceptions that the embedded code can raise. -/
inductive PyError where
  | indexError
  | keyError
  | nameError
  | valueError
  | typeError
  | attributeError
  deriving Repr, DecidableEq

/-- The mutable state of one `RouteManagerBase` instance (the fields the
claims touch). -/
structure RouteManagerState where
  init : Bool
  mode : String
  settings : Option Settings
  is_started : Bool
  start_calc : Bool
  route : List Location
  current_route_round_coords : List Location
  rounds : List (String × Int)
  positiontyp : List (String × Nat)
  routepool : List (String × RoutePoolEntry)
  workers_registered : List String
  last_round_prio : List (String × Bool)
  round_started_time : Option Int
  prio_queue : Option (List Event)
  delay_after_timestamp_prio : Option Int
  starve_route : Bool
  init_mode_rounds : Int
  coords_unstructured : Option (List Location)
  deriving Repr, DecidableEq

/-- Modelled from the spec: the abstract mode hooks (§4.7) are declared in
`RouteManagerBase` but implemented by subclasses outside this file; they are
modelled as opaque parameters. `get_coords_after_finish_route` and
`delete_coord_after_fetch` are per-mode constants; the geofence filter is the
external `GeofenceHelper`. -/
structure Hooks where
  recalc_route_workertype : RouteManagerState → RouteManagerState
  start_routemanager : RouteManagerState → RouteManagerState
  get_coords_after_finish_route : Bool
  check_coords_before_returning : Int → Int → Bool
  delete_coord_after_fetch : Bool
  get_coords_post_init : List Location
  geofence : List Location → List Location

/-- Trivial hooks: identity state transformers, permissive checks. -/
def idHooks : Hooks where
  recalc_route_workertype := fun t => t
  start_routemanager := fun t => t
  get_coords_after_finish_route := false
  check_coords_before_returning := fun _ _ => true
  delete_coord_after_fetch := false
  get_coords_post_init := []
  geofence := fun l => l

/-- Python-dict lookup on an association list (first matching key). -/
def alGet : List (String × β) → String → Option β
  | [], _ => none
  | (k', v') :: rest, k => if k' == k then some v' else alGet rest k

/-- `dict.get(k, d)`. -/
def alGetD (m : List (String × β)) (k : String) (d : β) : β :=
  (alGet m k).getD d

/-- `dict[k] = v`: overwrite in place if present, else append (insertion order). -/
def alSet : List (String × β) → String → β → List (String × β)
  | [], k, v => [(k, v)]
  | (k', v') :: rest, k, v =>
    if k' == k then (k, v) :: rest else (k', v') :: alSet rest k v

/-- `del dict[k]` on a unique-key association list (no-op when absent;
callers that need `KeyError` check presence first). -/
def alErase : List (String × β) → String → List (String × β)
  | [], _ => []
  | (k', v') :: rest, k =>
    if k' == k then alErase rest k else (k', v') :: alErase rest k

/-- `empty_routequeue` (lines 250-251): returns whether the current round
remainder is NON-empty, despite the name. -/
def empty_routequeue (s : RouteManagerState) : Bool :=
  decide (s.current_route_round_coords.length > 0)

/-- `get_route_status` (lines 726-730). -/
def get_route_status (s : RouteManagerState) (origin : String) : Int × Int :=
  if !s.route.isEmpty then
    ((s.route.length : Int) - (s.current_route_round_coords.length : Int),
     (s.route.length : Int))
  else (1, 1)

/-- `add_route_to_origin` (lines 735-737): bump every registered origin's
round counter. -/
def add_route_to_origin (s : RouteManagerState) : RouteManagerState :=
  { s with rounds := s.rounds.map (fun q => (q.1, q.2 + 1)) }

/-- `register_worker` (lines 134-154).  Note: the rebalance call present in
older revisions is commented out in the source (lines 148-150). -/
def register_worker (s : RouteManagerState) (worker_name : String) :
    Bool × RouteManagerState :=
  if s.workers_registered.contains worker_name then
    (false, s)
  else
    (true,
     { s with workers_registered := s.workers_registered ++ [worker_name]
              rounds := alSet s.rounds worker_name 0
              positiontyp := alSet s.positiontyp worker_name 0 })

/-- `unregister_worker` (lines 156-178).  The returned `Bool` records whether
the abstract `_quit_route()` hook was invoked (line 176); `del
self._rounds[worker_name]` raises `KeyError` when the key is missing. -/
def unregister_worker (s : RouteManagerState) (worker_name : String) :
    Except PyError (Bool × RouteManagerState) :=
  let step : Except PyError RouteManagerState :=
    if s.workers_registered.contains worker_name then
      let s' := { s with
        workers_registered := s.workers_registered.erase worker_name
        routepool :=
          if (alGet s.routepool worker_name).isSome then
            alErase s.routepool worker_name
          else s.routepool }
      if (alGet s'.rounds worker_name).isSome then
        Except.ok { s' with rounds := alErase s'.rounds worker_name }
      else
        Except.error PyError.keyError
    else
      Except.ok s
  match step with
  | Except.error e => Except.error e
  | Except.ok s1 =>
    Except.ok (s1.workers_registered.length == 0 && s1.is_started, s1)

/-- `_filter_priority_queue_internal` (lines 402-426).  `clusterer` stands for
the external `ClusteringHelper.get_clustered`. -/
def filter_priority_queue_internal (mode : String) (settings : Option Settings)
    (clusterer : List Event → List Event) (now : Int) (latest : List Event) :
    List Event :=
  if mode == "iv_mitm" then latest
  else
    let delete_seconds_passed : Option Int :=
      match settings with
      | none => some 0
      | some st =>
        match st.remove_from_queue_backlog with
        | none => some 0
        | some v => v
    let delete_before : Int :=
      match delete_seconds_passed with
      | some v => now - v
      | none => 0
    let kept := latest.filter (fun e => !(decide (e.1 < delete_before)))
    clusterer kept

/-- `heapq` insertion by due time (ordered-list heap model). -/
def insertByDue (e : Event) : List Event → List Event
  | [] => [e]
  | x :: xs => if e.1 ≤ x.1 then e :: x :: xs else x :: insertByDue e xs

/-- `heapq.heapify`, modelled as sorting by due time. -/
def heapify (l : List Event) : List Event :=
  l.foldr insertByDue []

/-- `_merge_priority_queue` (lines 283-293). -/
def merge_priority_queue (clusterer : List Event → List Event) (now : Int)
    (s : RouteManagerState) (new_queue : Option (List Event)) :
    RouteManagerState :=
  match new_queue with
  | none => s
  | some q =>
    let merged := heapify (filter_priority_queue_internal s.mode s.settings clusterer now q)
    { s with prio_queue := some merged }

/-- `math.ceil(m / n)` for natural `m`, positive `n` (exact for all list
lengths arising here). -/
def ceilDivNat (m n : Nat) : Nat :=
  (m + n - 1) / n

/-- Python `range(a, b)` for naturals (empty when `b ≤ a`). -/
def pyRangeN (a b : Nat) : List Nat :=
  (List.range (b - a)).map (fun k => a + k)

/-- `[coords[index] for index in idxs]`: IndexError when an index is out of
range (all indices arising in the partitioner are non-negative). -/
def buildComprehension (coords : List Location) (idxs : List Nat) :
    Except PyError (List Location) :=
  idxs.mapM (fun ix =>
    match coords.get? ix with
    | some l => Except.ok l
    | none => Except.error PyError.indexError)

/-- Lines 630-631: `while len(old_queue) > 0 and old_queue.popleft() !=
new_subroute[0]` — pops until the popped element equals the head of
`new_subroute`; evaluating `new_subroute[0]` raises IndexError when
`new_subroute` is empty and at least one pop happened. -/
def shrunkPop (q ns : List Location) : Except PyError (List Location) :=
  match q, ns with
  | [], _ => Except.ok []
  | _ :: _, [] => Except.error PyError.indexError
  | x :: xs, t :: ts =>
    if x = t then Except.ok xs else shrunkPop xs (t :: ts)

/-- Lines 647-649: pop from the front until the popped element equals `t`;
returns the remaining suffix (empty when `t` is absent). -/
def popUntilEq : List Location → Location → List Location
  | [], _ => []
  | x :: xs, t => if x = t then xs else popUntilEq xs t

/-- Python `list.index` / `deque.index` position of the first occurrence. -/
def pyIndexOf : List Location → Location → Option Nat
  | [], _ => none
  | y :: ys, x => if y = x then some 0 else (pyIndexOf ys x).map (fun n => n + 1)

/-- Python `del l[a:b]` (no-op when `a ≥ b`; slice bounds clip). -/
def pyDelSlice (l : List Location) (a b : Nat) : List Location :=
  if a ≥ b then l else l.take a ++ l.drop b

/-- Lines 680-683: refill an emptied queue from the new subroute and record
the new subroute (skipped on the `continue` at line 638). -/
def finishEntry (entry : RoutePoolEntry) (new_subroute : List Location)
    (oldq : Option (List Location)) :
    Except PyError (RoutePoolEntry × Option (List Location)) :=
  let entry := if entry.queue.isEmpty then { entry with queue := new_subroute } else entry
  Except.ok ({ entry with subroute := new_subroute }, oldq)

/-- One iteration of the loop at lines 601-683 of
`__worker_changed_update_routepools`: `i` is the running slice counter, `oldq`
models the function-scoped `old_queue` variable (unbound before its first
assignment, hence `NameError` when line 670 reads it first). -/
def updatePoolEntry (crrc : List Location) (L : Nat) (i : Nat)
    (oldq : Option (List Location)) (entry : RoutePoolEntry) :
    Except PyError (RoutePoolEntry × Option (List Location)) := do
  let idxs : List Nat :=
    if crrc.length % 2 == 0 then pyRangeN (i * L) ((i + 1) * L)
    else pyRangeN (i * L) ((i + 1) * L - 1)
  let new_subroute ← buildComprehension crrc idxs
  let entry :=
    if entry.subroute.isEmpty then
      { entry with subroute := new_subroute, queue := entry.queue ++ new_subroute }
    else entry
  if new_subroute.length == entry.subroute.length then
    finishEntry entry new_subroute oldq
  else if new_subroute.length < entry.subroute.length then
    let old_queue ← shrunkPop entry.queue new_subroute
    if old_queue.isEmpty then
      Except.ok ({ entry with queue := new_subroute }, some old_queue)
    else
      match old_queue.getLast? with
      | none => Except.error PyError.indexError
      | some last_el_old_q =>
        let entry :=
          if new_subroute.contains last_el_old_q then
            { entry with queue := entry.queue ++ popUntilEq new_subroute last_el_old_q }
          else entry
        finishEntry entry new_subroute (some old_queue)
  else if entry.subroute.length > 0 then
    match entry.subroute.getLast?, new_subroute.getLast? with
    | some last_el_old_route, some last_el_new_route =>
      let old_queue_list := entry.queue
      if old_queue_list.contains last_el_new_route then
        match oldq with
        | none => Except.error PyError.nameError
        | some oq =>
          match pyIndexOf oq last_el_new_route with
          | none => Except.error PyError.valueError
          | some idx =>
            let oql := pyDelSlice old_queue_list idx (old_queue_list.length - 1)
            finishEntry { entry with queue := oql } new_subroute oldq
      else if new_subroute.contains last_el_old_route then
        match pyIndexOf new_subroute last_el_old_route with
        | none => Except.error PyError.valueError
        | some idx =>
          let missing := new_subroute.drop idx
          finishEntry { entry with queue := old_queue_list ++ missing } new_subroute oldq
      else
        finishEntry { entry with queue := old_queue_list } new_subroute oldq
    | _, _ => Except.error PyError.indexError
  else
    finishEntry entry new_subroute oldq

/-- The loop of lines 600-683 over the route pool, threading `i` and the
`old_queue` variable. -/
def goPool (crrc : List Location) (L : Nat) :
    List (String × RoutePoolEntry) → Nat → Option (List Location) →
    Except PyError (List (String × RoutePoolEntry))
  | [], _, _ => Except.ok []
  | (k, e) :: rest, i, oldq => do
    let (e', oldq') ← updatePoolEntry crrc L i oldq e
    let rest' ← goPool crrc L rest (i + 1) oldq'
    Except.ok ((k, e') :: rest')

/-- `__worker_changed_update_routepools` (lines 591-707), the subroute
partitioner. -/
def worker_changed_update_routepools (hooks : Hooks) (s0 : RouteManagerState) :
    Except PyError RouteManagerState :=
  let s := if s0.route.isEmpty then hooks.recalc_route_workertype s0 else s0
  if s.workers_registered.isEmpty then
    Except.ok s
  else
    let L := ceilDivNat s.current_route_round_coords.length s.workers_registered.length
    match goPool s.current_route_round_coords L s.routepool 0 none with
    | Except.error e => Except.error e
    | Except.ok pool' => Except.ok { s with routepool := pool' }

/-- Outcome of one pass of `get_next_location`. `blocked` models the 1-second
sleep of the availability wait loop (lines 455-459): the call is suspended and
re-observes the state later; `retry` models the tail-recursive calls at lines
537 and 566. -/
inductive DispatchResult where
  | someLoc (l : Location)
  | noneRes
  | blocked
  | retry
  deriving Repr, DecidableEq

/-- The priority-branch test of lines 471-474: `delay_after_timestamp_prio is
not None and ((not last_round_prio.get(origin, False) or starve_route) and
prio_queue and len(prio_queue) > 0 and prio_queue[0][0] < time.time())`. -/
def takesPriorityBranch (now : Int) (s : RouteManagerState) (origin : String) :
    Bool :=
  s.delay_after_timestamp_prio.isSome &&
  ((!(alGetD s.last_round_prio origin false)) || s.starve_route) &&
  (match s.prio_queue with
   | some (e :: _) => decide (e.1 < now)
   | _ => false)

/-- Lines 558-566: release the lock, run `_check_coords_before_returning`, on
success possibly remove the coord from the round remainder a second time and
return it; on failure tail-recurse. -/
def finishReturn (hooks : Hooks) (p : RouteManagerState) (c : Location) :
    Except PyError (DispatchResult × RouteManagerState) :=
  if hooks.check_coords_before_returning c.lat c.lng then
    let p :=
      if hooks.delete_coord_after_fetch && p.current_route_round_coords.contains c then
        { p with current_route_round_coords := p.current_route_round_coords.erase c }
      else p
    Except.ok (DispatchResult.someLoc c, p)
  else
    Except.ok (DispatchResult.retry, p)

/-- Round-boundary block of lines 484-496: on `|route| == |remainder|` bump
every round counter when a previous round had started, restamp
`round_started_time`, and bail out when the route is empty. -/
def roundBoundaryStep (now : Int) (p : RouteManagerState) :
    Sum (DispatchResult × RouteManagerState) RouteManagerState :=
  if p.route.length == p.current_route_round_coords.length then
    let p := if p.round_started_time.isSome then add_route_to_origin p else p
    let p := { p with round_started_time := some now }
    if p.route.isEmpty then Sum.inl (DispatchResult.noneRes, p) else Sum.inr p
  else if p.round_started_time.isNone then
    Sum.inr { p with round_started_time := some now }
  else
    Sum.inr p

/-- Init-completion path of lines 504-526. `change_init_mapping` only rewrites
an external JSON file and is dropped from the state model. -/
def initDonePath (hooks : Hooks) (p : RouteManagerState) :
    Except PyError (DispatchResult × RouteManagerState) :=
  if p.start_calc then
    Except.ok (DispatchResult.noneRes, p)
  else
    let p := { p with start_calc := true, coords_unstructured := none }
    let p := { p with coords_unstructured := some (hooks.geofence hooks.get_coords_post_init) }
    let p := hooks.recalc_route_workertype p
    let p := { p with init := false }
    let p := { p with start_calc := false }
    Except.ok (DispatchResult.noneRes, p)

/-- Pop step of lines 545-557: a still-empty queue triggers one more rebalance
and then always returns None (the rebalance method returns `None`, so `if not
...` is always taken); otherwise pop the queue head, stamp `last_access`,
consume the coord from the round remainder when the mode says so, and clear
the origin's priority flag. -/
def popStep (hooks : Hooks) (now : Int) (p : RouteManagerState) (origin : String) :
    Except PyError (DispatchResult × RouteManagerState) :=
  match alGet p.routepool origin with
  | none => Except.error PyError.keyError
  | some entry =>
    match entry.queue with
    | [] =>
      (match worker_changed_update_routepools hooks p with
       | Except.error e => Except.error e
       | Except.ok p' => Except.ok (DispatchResult.noneRes, p'))
    | c :: restq =>
      let entry' := { entry with queue := restq, last_access := now }
      let p := { p with routepool := alSet p.routepool origin entry' }
      let p :=
        if hooks.delete_coord_after_fetch && p.current_route_round_coords.contains c then
          { p with current_route_round_coords := p.current_route_round_coords.erase c }
        else p
      let p := { p with last_round_prio := alSet p.last_round_prio origin false }
      finishReturn hooks p c

/-- The `elif` chain of lines 527-542 followed by the pop step. -/
def elifChain (hooks : Hooks) (now : Int) (p : RouteManagerState) (origin : String) :
    Except PyError (DispatchResult × RouteManagerState) :=
  match alGet p.routepool origin with
  | none => Except.error PyError.keyError
  | some entry =>
    if p.current_route_round_coords.length > 1 && entry.queue.isEmpty then
      (match worker_changed_update_routepools hooks p with
       | Except.error e => Except.error e
       | Except.ok p' => popStep hooks now p' origin)
    else if p.current_route_round_coords.length == 1 && entry.queue.isEmpty then
      popStep hooks now p origin
    else if p.current_route_round_coords.isEmpty && entry.queue.isEmpty then
      if hooks.get_coords_after_finish_route then
        Except.ok (DispatchResult.retry, p)
      else
        Except.ok (DispatchResult.noneRes, p)
    else
      popStep hooks now p origin

/-- Normal (non-priority) branch of lines 481-557. -/
def normalPath (hooks : Hooks) (now : Int) (p0 : RouteManagerState) (origin : String) :
    Except PyError (DispatchResult × RouteManagerState) :=
  let p := { p0 with positiontyp := alSet p0.positiontyp origin 0 }
  match roundBoundaryStep now p with
  | Sum.inl r => Except.ok r
  | Sum.inr p =>
    let p :=
      if p.init && p.current_route_round_coords.isEmpty then
        { p with init_mode_rounds := p.init_mode_rounds + 1 }
      else p
    if p.init && p.current_route_round_coords.isEmpty then
      match p.settings with
      | none => Except.error PyError.attributeError
      | some st =>
        if decide (p.init_mode_rounds ≥ st.init_mode_rounds.getD 1) then
          match alGet p.routepool origin with
          | none => Except.error PyError.keyError
          | some entry =>
            if entry.queue.isEmpty then initDonePath hooks p
            else elifChain hooks now p origin
        else elifChain hooks now p origin
    else elifChain hooks now p origin

/-- Lines 436-466: lazy start, the `_start_calc` bail-out and the
availability wait loop. `Sum.inl` = the call returned there, `Sum.inr` = the
state on which the priority-vs-normal decision is evaluated. -/
def preambleRest (hooks : Hooks) (s1 : RouteManagerState) (origin : String) :
    Except PyError (Sum (DispatchResult × RouteManagerState) RouteManagerState) :=
  let s := if !s1.is_started then hooks.start_routemanager s1 else s1
  if s.start_calc then
    Except.ok (Sum.inl (DispatchResult.noneRes, s))
  else if s.is_started && !s.init then
    match alGet s.routepool origin with
    | none => Except.error PyError.keyError
    | some entry =>
      let got := !s.current_route_round_coords.isEmpty || !entry.queue.isEmpty ||
        (match s.prio_queue with
         | some l => !l.isEmpty
         | none => false)
      if got then Except.ok (Sum.inr s)
      else if hooks.get_coords_after_finish_route then
        Except.ok (Sum.inl (DispatchResult.blocked, s))
      else
        Except.ok (Sum.inl (DispatchResult.noneRes, s))
  else
    Except.ok (Sum.inr s)

/-- Steps before the priority-vs-normal decision (lines 429-466): lazy route
recalc, fresh route-pool entry plus rebalance (lines 431-433), then
`preambleRest`. -/
def preamble (hooks : Hooks) (now : Int) (s0 : RouteManagerState) (origin : String) :
    Except PyError (Sum (DispatchResult × RouteManagerState) RouteManagerState) :=
  let s := if s0.route.isEmpty then hooks.recalc_route_workertype s0 else s0
  if (alGet s.routepool origin).isNone then
    match worker_changed_update_routepools hooks
        { s with routepool := alSet s.routepool origin (RoutePoolEntry.mk now [] []) } with
    | Except.error e => Except.error e
    | Except.ok s' => preambleRest hooks s' origin
  else
    preambleRest hooks s origin

/-- Branch decision and its two arms (lines 471-566): pop the heap head on the
priority branch (`heapq.heappop` on an empty list would raise IndexError, on
`None` a TypeError — unreachable under the guard), else the normal branch. -/
def dispatchFrom (hooks : Hooks) (now : Int) (p : RouteManagerState) (origin : String) :
    Except PyError (DispatchResult × RouteManagerState) :=
  if takesPriorityBranch now p origin then
    match p.prio_queue with
    | none => Except.error PyError.typeError
    | some [] => Except.error PyError.indexError
    | some (e :: rest) =>
      let p := { p with
        prio_queue := some rest
        last_round_prio := alSet p.last_round_prio origin true
        positiontyp := alSet p.positiontyp origin 1 }
      finishReturn hooks p e.2
  else
    normalPath hooks now p origin

/-- `get_next_location` (lines 428-566), one pass of the dispatcher state
machine. -/
def get_next_location (hooks : Hooks) (now : Int) (s : RouteManagerState)
    (origin : String) : Except PyError (DispatchResult × RouteManagerState) :=
  match preamble hooks now s origin with
  | Except.error e => Except.error e
  | Except.ok (Sum.inl r) => Except.ok r
  | Except.ok (Sum.inr p) => dispatchFrom hooks now p origin

/-- The mode hooks leave the registry bookkeeping (`_rounds`,
`_last_round_prio`, `starve_route`) alone; per §4.7 the hooks recalculate
routes, start or stop background work, and filter coordinates. -/
structure HooksPreserveBookkeeping (hooks : Hooks) : Prop where
  recalc_rounds : ∀ t, (hooks.recalc_route_workertype t).rounds = t.rounds
  recalc_lrp : ∀ t, (hooks.recalc_route_workertype t).last_round_prio = t.last_round_prio
  recalc_starve : ∀ t, (hooks.recalc_route_workertype t).starve_route = t.starve_route
  start_rounds : ∀ t, (hooks.start_routemanager t).rounds = t.rounds
  start_lrp : ∀ t, (hooks.start_routemanager t).last_round_prio = t.last_round_prio
  start_starve : ∀ t, (hooks.start_routemanager t).starve_route = t.starve_route

/-- The state carried by either side of an early-return/proceed outcome. -/
def stateOf : Sum (DispatchResult × RouteManagerState) RouteManagerState →
    RouteManagerState
  | Sum.inl (_, q) => q
  | Sum.inr q => q

/-- Two states agree on the registry bookkeeping read by the priority-branch
test and the round accounting. -/
def BookkeepingEq (q s : RouteManagerState) : Prop :=
  q.rounds = s.rounds ∧ q.last_round_prio = s.last_round_prio ∧
    q.starve_route = s.starve_route

/-- The identity hooks preserve the bookkeeping. -/
def idHooksPreserve : HooksPreserveBookkeeping idHooks where
  recalc_rounds := fun _ => rfl
  recalc_lrp := fun _ => rfl
  recalc_starve := fun _ => rfl
  start_rounds := fun _ => rfl
  start_lrp := fun _ => rfl
  start_starve := fun _ => rfl

/-- Concrete coordinates for the executable test states. -/
def locA : Location := ⟨1, 1⟩

def locB : Location := ⟨2, 2⟩

def locC : Location := ⟨3, 3⟩

def locD : Location := ⟨4, 4⟩

/-- A small running manager: one registered worker `A`, a two-coord route at a
round boundary, no priority overlay. -/
def baseState : RouteManagerState where
  init := false
  mode := "raids_mitm"
  settings := none
  is_started := true
  start_calc := false
  route := [locA, locB]
  current_route_round_coords := [locA, locB]
  rounds := [("A", 0)]
  positiontyp := []
  routepool := [("A", ⟨0, [locA], [locA]⟩)]
  workers_registered := ["A"]
  last_round_prio := []
  round_started_time := some 0
  prio_queue := none
  delay_after_timestamp_prio := none
  starve_route := false
  init_mode_rounds := 0
  coords_unstructured := none

/-- Three registered workers with route-pool entries and a four-coordinate
round remainder: `ceil(4/3) = 2`, so the third slice is `range(4, 6)`. -/
def c1State : RouteManagerState := { baseState with
  route := [locA, locB, locC, locD]
  current_route_round_coords := [locA, locB, locC, locD]
  workers_registered := ["A", "B", "C"]
  routepool := [("A", ⟨0, [], []⟩), ("B", ⟨0, [], []⟩), ("C", ⟨0, [], []⟩)]
  rounds := [("A", 0), ("B", 0), ("C", 0)] }

/-- `baseState` with a due priority event and the priority overlay enabled. -/
def c2State : RouteManagerState := { baseState with
  prio_queue := some [(0, locC)]
  delay_after_timestamp_prio := some 5 }

/-- The state `get_next_location idHooks 10 c2State "A"` ends in: the event
popped, `last_round_prio["A"] = True`, `position_type["A"] = 1`. -/
def c2State1 : RouteManagerState := { c2State with
  prio_queue := some []
  last_round_prio := [("A", true)]
  positiontyp := [("A", 1)] }

/-- One registered worker with an empty-subroute pool entry: a rebalance here
visibly refills the entry. -/
def c4State : RouteManagerState := { baseState with
  routepool := [("A", ⟨0, [], []⟩)] }

/-- Whether a partition rebalance started from `s` changes the route pool. -/
def rebalanceChangesPool (s : RouteManagerState) : Bool :=
  match worker_changed_update_routepools idHooks s with
  | Except.ok t => t.routepool != s.routepool
  | Except.error _ => false

/-- The state the boundary dispatch `get_next_location idHooks 10 baseState
"A"` ends in: rounds bumped, `locA` served. -/
def c6State1 : RouteManagerState := { baseState with
  rounds := [("A", 1)]
  positiontyp := [("A", 0)]
  routepool := [("A", ⟨10, [], [locA]⟩)]
  last_round_prio := [("A", false)]
  round_started_time := some 10 }

/-- A started manager with no workers registered at all. -/
def c10State : RouteManagerState := { baseState with
  workers_registered := []
  rounds := [] }

/-! ### Helper lemmas -/

theorem alGet_alSet_self (m : List (String × β)) (k : String) (v : β) :
    alGet (alSet m k v) k = some v := by
  induction m with
  | nil => simp [alSet, alGet]
  | cons p rest ih =>
    by_cases h : p.1 == k
    · simp [alSet, alGet, h]
    · simp [alSet, alGet, h, ih]

theorem alGetD_alSet_self (m : List (String × β)) (k : String) (v d : β) :
    alGetD (alSet m k v) k d = v := by
  simp [alGetD, alGet_alSet_self]

theorem finishReturn_keeps (hooks : Hooks) (p : RouteManagerState) (c : Location)
    (r : DispatchResult) (s' : RouteManagerState)
    (h : finishReturn hooks p c = Except.ok (r, s')) :
    s'.rounds = p.rounds ∧ s'.last_round_prio = p.last_round_prio ∧
      s'.starve_route = p.starve_route := by
  unfold finishReturn at h
  split at h
  · simp only [Except.ok.injEq, Prod.mk.injEq] at h
    obtain ⟨-, h2⟩ := h
    split at h2 <;> (subst h2; simp)
  · simp only [Except.ok.injEq, Prod.mk.injEq] at h
    obtain ⟨-, h2⟩ := h
    subst h2
    exact ⟨rfl, rfl, rfl⟩

theorem wcur_keeps (hooks : Hooks) (hp : HooksPreserveBookkeeping hooks)
    (s s' : RouteManagerState)
    (h : worker_changed_update_routepools hooks s = Except.ok s') :
    BookkeepingEq s' s := by
  unfold BookkeepingEq
  simp only [worker_changed_update_routepools] at h
  by_cases hr : s.route.isEmpty
  · simp only [hr, if_true] at h
    split at h
    · simp only [Except.ok.injEq] at h
      subst h
      exact ⟨hp.recalc_rounds s, hp.recalc_lrp s, hp.recalc_starve s⟩
    · split at h
      · exact Except.noConfusion h
      · simp only [Except.ok.injEq] at h
        subst h
        exact ⟨hp.recalc_rounds s, hp.recalc_lrp s, hp.recalc_starve s⟩
  · simp only [hr, Bool.false_eq_true, if_false] at h
    split at h
    · simp only [Except.ok.injEq] at h
      subst h
      exact ⟨rfl, rfl, rfl⟩
    · split at h
      · exact Except.noConfusion h
      · simp only [Except.ok.injEq] at h
        subst h
        exact ⟨rfl, rfl, rfl⟩

theorem preambleRest_cases (hooks : Hooks) (s1 : RouteManagerState) (origin : String)
    (out : Sum (DispatchResult × RouteManagerState) RouteManagerState)
    (h : preambleRest hooks s1 origin = Except.ok out) :
    out = Sum.inl (DispatchResult.noneRes,
        if !s1.is_started then hooks.start_routemanager s1 else s1) ∨
    out = Sum.inl (DispatchResult.blocked,
        if !s1.is_started then hooks.start_routemanager s1 else s1) ∨
    out = Sum.inr (if !s1.is_started then hooks.start_routemanager s1 else s1) := by
  simp only [preambleRest] at h
  by_cases hst : (!s1.is_started) = true <;>
    simp only [hst, if_true, Bool.false_eq_true, if_false] at h ⊢ <;>
    (repeat' split at h) <;>
    first
      | exact Except.noConfusion h
      | (simp only [Except.ok.injEq] at h; subst h; simp)

theorem bookkeepingEq_trans {a b c : RouteManagerState}
    (h1 : BookkeepingEq a b) (h2 : BookkeepingEq b c) : BookkeepingEq a c :=
  ⟨h1.1.trans h2.1, h1.2.1.trans h2.2.1, h1.2.2.trans h2.2.2⟩

theorem preamble_keeps (hooks : Hooks) (hp : HooksPreserveBookkeeping hooks)
    (now : Int) (s0 : RouteManagerState) (origin : String)
    (out : Sum (DispatchResult × RouteManagerState) RouteManagerState)
    (h : preamble hooks now s0 origin = Except.ok out) :
    (∀ r q, out = Sum.inl (r, q) → BookkeepingEq q s0) ∧
    (∀ q, out = Sum.inr q → BookkeepingEq q s0) := by
  have hbase : ∀ s1, preambleRest hooks s1 origin = Except.ok out →
      BookkeepingEq s1 s0 →
      (∀ r q, out = Sum.inl (r, q) → BookkeepingEq q s0) ∧
      (∀ q, out = Sum.inr q → BookkeepingEq q s0) := by
    intro s1 hrest hbk
    have hq : BookkeepingEq
        (if !s1.is_started then hooks.start_routemanager s1 else s1) s0 := by
      by_cases hst : (!s1.is_started) = true
      · simp only [hst, if_true]
        exact bookkeepingEq_trans
          ⟨hp.start_rounds s1, hp.start_lrp s1, hp.start_starve s1⟩ hbk
      · simp only [hst, Bool.false_eq_true, if_false]
        exact hbk
    rcases preambleRest_cases hooks s1 origin out hrest with h1 | h1 | h1 <;> subst h1
    · refine ⟨fun r q hq' => ?_, fun q hq' => Sum.noConfusion hq'⟩
      simp only [Sum.inl.injEq, Prod.mk.injEq] at hq'
      obtain ⟨-, h2⟩ := hq'
      subst h2
      exact hq
    · refine ⟨fun r q hq' => ?_, fun q hq' => Sum.noConfusion hq'⟩
      simp only [Sum.inl.injEq, Prod.mk.injEq] at hq'
      obtain ⟨-, h2⟩ := hq'
      subst h2
      exact hq
    · refine ⟨fun r q hq' => Sum.noConfusion hq', fun q hq' => ?_⟩
      simp only [Sum.inr.injEq] at hq'
      subst hq'
      exact hq
  by_cases hr : s0.route.isEmpty = true <;>
    simp only [preamble, hr, if_true, Bool.false_eq_true, if_false] at h
  case pos =>
    have hiteB : BookkeepingEq (hooks.recalc_route_workertype s0) s0 :=
      ⟨hp.recalc_rounds s0, hp.recalc_lrp s0, hp.recalc_starve s0⟩
    split at h
    · split at h
      · exact Except.noConfusion h
      · next s2 heq =>
        exact hbase s2 h (bookkeepingEq_trans (wcur_keeps hooks hp _ s2 heq) hiteB)
    · exact hbase _ h hiteB
  case neg =>
    split at h
    · split at h
      · exact Except.noConfusion h
      · next s2 heq =>
        exact hbase s2 h
          (bookkeepingEq_trans (wcur_keeps hooks hp _ s2 heq) ⟨rfl, rfl, rfl⟩)
    · exact hbase _ h ⟨rfl, rfl, rfl⟩

theorem popStep_rounds (hooks : Hooks) (hp : HooksPreserveBookkeeping hooks)
    (now : Int) (p : RouteManagerState) (origin : String)
    (r : DispatchResult) (s' : RouteManagerState)
    (h : popStep hooks now p origin = Except.ok (r, s')) :
    s'.rounds = p.rounds := by
  simp only [popStep] at h
  split at h
  · exact Except.noConfusion h
  · split at h
    · split at h
      · exact Except.noConfusion h
      · next p2 heq2 =>
        simp only [Except.ok.injEq, Prod.mk.injEq] at h
        obtain ⟨-, h2⟩ := h
        subst h2
        exact (wcur_keeps hooks hp _ _ heq2).1
    · have hk := finishReturn_keeps _ _ _ _ _ h
      rw [hk.1]
      split <;> rfl

theorem elifChain_rounds (hooks : Hooks) (hp : HooksPreserveBookkeeping hooks)
    (now : Int) (p : RouteManagerState) (origin : String)
    (r : DispatchResult) (s' : RouteManagerState)
    (h : elifChain hooks now p origin = Except.ok (r, s')) :
    s'.rounds = p.rounds := by
  simp only [elifChain] at h
  split at h
  · exact Except.noConfusion h
  · split at h
    · split at h
      · exact Except.noConfusion h
      · next p2 heq2 =>
        rw [popStep_rounds hooks hp now p2 origin r s' h]
        exact (wcur_keeps hooks hp _ _ heq2).1
    · split at h
      · exact popStep_rounds hooks hp now p origin r s' h
      · split at h
        · split at h <;>
            (simp only [Except.ok.injEq, Prod.mk.injEq] at h
             obtain ⟨-, h2⟩ := h
             subst h2
             rfl)
        · exact popStep_rounds hooks hp now p origin r s' h

theorem initDonePath_rounds (hooks : Hooks) (hp : HooksPreserveBookkeeping hooks)
    (p : RouteManagerState) (r : DispatchResult) (s' : RouteManagerState)
    (h : initDonePath hooks p = Except.ok (r, s')) :
    s'.rounds = p.rounds := by
  simp only [initDonePath] at h
  split at h
  · simp only [Except.ok.injEq, Prod.mk.injEq] at h
    obtain ⟨-, h2⟩ := h
    subst h2
    rfl
  · simp only [Except.ok.injEq, Prod.mk.injEq] at h
    obtain ⟨-, h2⟩ := h
    subst h2
    exact hp.recalc_rounds _

theorem roundBoundaryStep_rounds (now : Int) (p : RouteManagerState) :
    (stateOf (roundBoundaryStep now p)).rounds =
      (if p.route.length = p.current_route_round_coords.length ∧
          p.round_started_time ≠ none
       then p.rounds.map (fun x => (x.1, x.2 + 1)) else p.rounds) := by
  unfold roundBoundaryStep
  by_cases hb : (p.route.length == p.current_route_round_coords.length) = true
  · have hbP : p.route.length = p.current_route_round_coords.length := by
      simpa using hb
    simp only [hb, if_true]
    by_cases hst : p.round_started_time.isSome
    · have hstP : p.round_started_time ≠ none := Option.isSome_iff_ne_none.mp hst
      simp only [hst, if_true, hbP, hstP, ne_eq, not_false_eq_true, and_self]
      by_cases hre : p.route.isEmpty = true <;>
        simp [hre, stateOf, add_route_to_origin]
    · have hstP : p.round_started_time = none := Option.not_isSome_iff_eq_none.mp hst
      simp only [hst, Bool.false_eq_true, if_false, hstP, ne_eq, not_true_eq_false,
        and_false]
      by_cases hre : p.route.isEmpty = true <;> simp [hre, stateOf]
  · have hbP : ¬(p.route.length = p.current_route_round_coords.length) := by
      simpa using hb
    simp only [hb, Bool.false_eq_true, if_false, hbP, false_and]
    by_cases hst : p.round_started_time.isNone = true <;> simp [hst, stateOf]

theorem normalPath_rounds (hooks : Hooks) (hp : HooksPreserveBookkeeping hooks)
    (now : Int) (p0 : RouteManagerState) (origin : String)
    (r : DispatchResult) (s' : RouteManagerState)
    (h : normalPath hooks now p0 origin = Except.ok (r, s')) :
    s'.rounds =
      (if p0.route.length = p0.current_route_round_coords.length ∧
          p0.round_started_time ≠ none
       then p0.rounds.map (fun x => (x.1, x.2 + 1)) else p0.rounds) := by
  simp only [normalPath] at h
  have hrb := roundBoundaryStep_rounds now
    { p0 with positiontyp := alSet p0.positiontyp origin 0 }
  split at h
  · next rq heq =>
    rw [heq] at hrb
    simp only [Except.ok.injEq] at h
    subst h
    exact hrb
  · next p2 heq =>
    rw [heq] at hrb
    repeat' split at h
    all_goals
      first
        | exact Except.noConfusion h
        | (rw [initDonePath_rounds hooks hp _ _ _ h]; exact hrb)
        | (rw [elifChain_rounds hooks hp _ _ _ _ _ h]; exact hrb)

theorem takesPriorityBranch_queue (now : Int) (p : RouteManagerState)
    (origin : String) (h : takesPriorityBranch now p origin = true) :
    ∃ e rest, p.prio_queue = some (e :: rest) := by
  unfold takesPriorityBranch at h
  simp only [Bool.and_eq_true] at h
  obtain ⟨-, h3⟩ := h
  cases hq : p.prio_queue with
  | none => rw [hq] at h3; simp at h3
  | some l =>
    cases l with
    | nil => rw [hq] at h3; simp at h3
    | cons e rest => exact ⟨e, rest, rfl⟩

theorem dispatchFrom_rounds (hooks : Hooks) (hp : HooksPreserveBookkeeping hooks)
    (now : Int) (p : RouteManagerState) (origin : String)
    (r : DispatchResult) (s' : RouteManagerState)
    (h : dispatchFrom hooks now p origin = Except.ok (r, s')) :
    s'.rounds =
      (if takesPriorityBranch now p origin = false ∧
          p.route.length = p.current_route_round_coords.length ∧
          p.round_started_time ≠ none
       then p.rounds.map (fun x => (x.1, x.2 + 1)) else p.rounds) := by
  simp only [dispatchFrom] at h
  by_cases htp : takesPriorityBranch now p origin = true
  · simp only [htp, if_true] at h
    split at h
    · exact Except.noConfusion h
    · exact Except.noConfusion h
    · have hk := finishReturn_keeps _ _ _ _ _ h
      rw [hk.1]
      simp [htp]
  · have htp' : takesPriorityBranch now p origin = false := by
      simpa using htp
    simp only [htp', Bool.false_eq_true, if_false] at h
    rw [normalPath_rounds hooks hp now p origin r s' h]
    simp [htp']

/-- C6: a dispatch call that reaches the branch decision on state `p` and
takes the normal branch with `|route| = |current_round_remainder|` and
`round_started_time` set bumps `rounds[o]` by exactly one for every origin
`o` present in the rounds mapping; on every other path of
`get_next_location` (early returns, priority branch, normal branch without a
detected boundary) the rounds mapping is unchanged.  The mode hooks are
assumed not to touch the rounds bookkeeping. -/
theorem get_next_location_rounds_boundary (hooks : Hooks)
    (hp : HooksPreserveBookkeeping hooks) (now : Int) (s : RouteManagerState)
    (origin : String) (r : DispatchResult) (s' : RouteManagerState)
    (h : get_next_location hooks now s origin = Except.ok (r, s')) :
    (∀ res, preamble hooks now s origin = Except.ok (Sum.inl res) →
        s'.rounds = s.rounds) ∧
    (∀ p, preamble hooks now s origin = Except.ok (Sum.inr p) →
        p.rounds = s.rounds ∧
        s'.rounds =
          (if takesPriorityBranch now p origin = false ∧
              p.route.length = p.current_route_round_coords.length ∧
              p.round_started_time ≠ none
           then p.rounds.map (fun x => (x.1, x.2 + 1)) else p.rounds)) := by
  simp only [get_next_location] at h
  split at h
  · exact Except.noConfusion h
  · next rq heq =>
    simp only [Except.ok.injEq] at h
    subst h
    constructor
    · intro res hres
      exact ((preamble_keeps hooks hp now s origin _ heq).1 r s' rfl).1
    · intro p hp2
      rw [heq] at hp2
      simp at hp2
  · next p2 heq =>
    constructor
    · intro res hres
      rw [heq] at hres
      simp at hres
    · intro p hp2
      rw [heq] at hp2
      simp only [Except.ok.injEq, Sum.inr.injEq] at hp2
      subst hp2
      refine ⟨((preamble_keeps hooks hp now s origin _ heq).2 p2 rfl).1, ?_⟩
      exact dispatchFrom_rounds hooks hp now p2 origin r s' h

/-- C6 witness: on `baseState` (round boundary with a started prior round),
the boundary dispatch bumps the single registered origin's round counter by
exactly one. -/
theorem get_next_location_rounds_boundary_witness :
    baseState.rounds = baseState.rounds ∧
    c6State1.rounds =
      (if takesPriorityBranch 10 baseState "A" = false ∧
          baseState.route.length = baseState.current_route_round_coords.length ∧
          baseState.round_started_time ≠ none
       then baseState.rounds.map (fun x => (x.1, x.2 + 1)) else baseState.rounds) :=
  (get_next_location_rounds_boundary idHooks idHooksPreserve 10 baseState "A"
      (DispatchResult.someLoc locA) c6State1 (by rfl)).2 baseState (by rfl)

/-- C2: with `starve_route = false`, a call that takes the priority branch
leaves `last_round_prio[origin] = True`, and any subsequent call that reaches
the branch decision with that flag still set cannot take the priority branch
(only a completed normal dispatch resets the flag, line 557).  The mode hooks
are assumed not to touch the bookkeeping. -/
theorem get_next_location_no_consecutive_priority (hooks : Hooks)
    (hp : HooksPreserveBookkeeping hooks) (now nowNext : Int)
    (s p : RouteManagerState) (origin : String) (r1 : DispatchResult)
    (s1 : RouteManagerState)
    (hpre : preamble hooks now s origin = Except.ok (Sum.inr p))
    (hprio : takesPriorityBranch now p origin = true)
    (hok : get_next_location hooks now s origin = Except.ok (r1, s1))
    (hstarve : s1.starve_route = false) :
    alGetD s1.last_round_prio origin false = true ∧
    (∀ pNext, preamble hooks nowNext s1 origin = Except.ok (Sum.inr pNext) →
        takesPriorityBranch nowNext pNext origin = false) := by
  have hdisp : dispatchFrom hooks now p origin = Except.ok (r1, s1) := by
    simp only [get_next_location, hpre] at hok
    exact hok
  obtain ⟨e, rest, hq⟩ := takesPriorityBranch_queue now p origin hprio
  have hlrp : alGetD s1.last_round_prio origin false = true := by
    simp only [dispatchFrom, hprio, if_true, hq] at hdisp
    have hk := finishReturn_keeps _ _ _ _ _ hdisp
    rw [hk.2.1]
    exact alGetD_alSet_self p.last_round_prio origin true false
  refine ⟨hlrp, fun pNext hnext => ?_⟩
  have hbk := (preamble_keeps hooks hp nowNext s1 origin _ hnext).2 pNext rfl
  have hl := hbk.2.1
  have hs := hbk.2.2
  simp only [takesPriorityBranch, hl, hs, hstarve, hlrp, Bool.not_true,
    Bool.or_false, Bool.and_false, Bool.false_and]

/-- C2 witness: on `c2State` (due event, priority overlay on, starvation
off), the priority dispatch sets the flag and the follow-up call cannot take
the priority branch. -/
theorem get_next_location_no_consecutive_priority_witness :
    alGetD c2State1.last_round_prio "A" false = true ∧
    takesPriorityBranch 11 c2State1 "A" = false := by
  have h := get_next_location_no_consecutive_priority idHooks idHooksPreserve
    10 11 c2State c2State "A" (DispatchResult.someLoc locC) c2State1
    (by rfl) (by rfl) (by rfl) (by rfl)
  exact ⟨h.1, h.2 c2State1 (by rfl)⟩

/-- C1: the partitioner does NOT clip its slices to the remainder length.
With 4 remaining coordinates and 3 registered workers (each with a pool
entry), `new_subroute_length = ceil(4/3) = 2` and the third entry's slice is
`range(4, 6)`, so the comprehension indexes position 4 of a 4-element list
and raises IndexError. -/
theorem worker_changed_update_routepools_index_error :
    worker_changed_update_routepools idHooks c1State =
      Except.error PyError.indexError := by
  rfl

/-- C3 counterexample: with the `remove_from_queue_backlog` key absent (the
default 0 applies) and the identity clusterer, the entry due at 50 is dropped
at `now = 100` — the time-based drop step does NOT keep all entries. -/
theorem filter_backlog_zero_drops_entry :
    filter_priority_queue_internal "mon_mitm" (some ⟨none, none⟩) (fun l => l)
      100 [(50, locA)] = [] := by
  rfl

/-- C3 amended: when `remove_from_queue_backlog` is 0 (explicitly or via the
absent-key default), `delete_before = now - 0 = now` and the drop step keeps
exactly the entries with `due_at ≥ now`; entries with `due_at < now` are
dropped.  The drop is disabled only when the key is present holding `None`. -/
theorem filter_backlog_zero_amended (mode : String) (st : Settings)
    (clusterer : List Event → List Event) (now : Int) (latest : List Event)
    (hmode : (mode == "iv_mitm") = false)
    (hb : st.remove_from_queue_backlog = none ∨
      st.remove_from_queue_backlog = some (some 0)) :
    filter_priority_queue_internal mode (some st) clusterer now latest =
      clusterer (latest.filter (fun e => !(decide (e.1 < now)))) := by
  unfold filter_priority_queue_internal
  rcases hb with hb | hb <;> simp [hmode, hb]

/-- C3 amended witness: at `now = 100` the entry due 50 is dropped and the
entry due 150 is kept. -/
theorem filter_backlog_zero_amended_witness :
    filter_priority_queue_internal "mon_mitm" (some ⟨none, none⟩) (fun l => l)
      100 [(50, locA), (150, locB)] =
      (fun l => l) (([(50, locA), (150, locB)] : List Event).filter
        (fun e => !(decide (e.1 < 100)))) :=
  filter_backlog_zero_amended "mon_mitm" ⟨none, none⟩ (fun l => l) 100
    [(50, locA), (150, locB)] rfl (Or.inl rfl)

/-- C5 counterexample: in `iv_mitm` mode an entry due at 50 survives at
`now = 100` with `remove_from_queue_backlog = 10` (it should be dropped per
the claim), and a clusterer that maps everything to `[]` is never applied —
the whole filter body is skipped, not just clustering. -/
theorem filter_iv_mitm_skips_drop :
    filter_priority_queue_internal "iv_mitm" (some ⟨some (some 10), none⟩)
      (fun _ => []) 100 [(50, locA)] = [(50, locA)] := by
  rfl

/-- C5 amended: in `iv_mitm` mode `_filter_priority_queue_internal` returns
its input unchanged — neither the time-based drop nor clustering runs. -/
theorem filter_iv_mitm_amended (settings : Option Settings)
    (clusterer : List Event → List Event) (now : Int) (latest : List Event) :
    filter_priority_queue_internal "iv_mitm" settings clusterer now latest =
      latest := by
  rfl

/-- C7: merging a failed (`None`) fetch is a no-op on the whole state, in
particular on the priority heap. -/
theorem merge_priority_queue_none_noop (clusterer : List Event → List Event)
    (now : Int) (s : RouteManagerState) :
    merge_priority_queue clusterer now s none = s := by
  rfl

/-- C4 counterexample: registering the fresh origin "B" on `c4State` returns
`true` but leaves the route pool untouched, although an actual partition
rebalance of the resulting state would visibly change the pool — so
`register_worker` does not trigger a rebalance. -/
theorem register_worker_no_rebalance :
    (register_worker c4State "B").1 = true ∧
    (register_worker c4State "B").2.routepool = c4State.routepool ∧
    rebalanceChangesPool (register_worker c4State "B").2 = true := by
  exact ⟨rfl, rfl, rfl⟩

/-- C4 amended: `register_worker` returns `false` and changes nothing when
the origin is present; otherwise it appends the origin, zero-initializes its
rounds and position type and returns `true` — but it does NOT touch the route
pool and triggers no partition rebalance (the call is commented out; the pool
is rebuilt lazily on the next `get_next_location`). -/
theorem register_worker_amended (s : RouteManagerState) (w : String) :
    (s.workers_registered.contains w = true → register_worker s w = (false, s)) ∧
    (s.workers_registered.contains w = false →
      register_worker s w =
        (true, { s with workers_registered := s.workers_registered ++ [w]
                        rounds := alSet s.rounds w 0
                        positiontyp := alSet s.positiontyp w 0 }) ∧
      (register_worker s w).2.routepool = s.routepool) := by
  constructor
  · intro h
    have h' : w ∈ s.workers_registered := by simpa using h
    simp [register_worker, h']
  · intro h
    have h' : w ∉ s.workers_registered := by simpa using h
    simp [register_worker, h']

/-- C4 amended witness: the fresh registration on `c4State`. -/
theorem register_worker_amended_witness :
    register_worker c4State "B" =
      (true, { c4State with
        workers_registered := c4State.workers_registered ++ ["B"]
        rounds := alSet c4State.rounds "B" 0
        positiontyp := alSet c4State.positiontyp "B" 0 }) ∧
    (register_worker c4State "B").2.routepool = c4State.routepool :=
  (register_worker_amended c4State "B").2 (by rfl)

/-- C8: `get_route_status` ignores its origin argument and returns
`(|route| - |remainder|, |route|)` for a non-empty route and `(1, 1)` for an
empty one; the embedded function is pure, so no state is modified. -/
theorem get_route_status_spec (s : RouteManagerState) (o o' : String) :
    get_route_status s o = get_route_status s o' ∧
    (s.route ≠ [] → get_route_status s o =
      ((s.route.length : Int) - (s.current_route_round_coords.length : Int),
       (s.route.length : Int))) ∧
    (s.route = [] → get_route_status s o = (1, 1)) := by
  refine ⟨rfl, ?_, ?_⟩
  · intro hne
    cases hroute : s.route with
    | nil => exact absurd hroute hne
    | cons a as => simp [get_route_status, hroute]
  · intro heq
    simp [get_route_status, heq]

/-- C8 witness: on `baseState` (route of length 2, remainder of length 2). -/
theorem get_route_status_spec_witness :
    get_route_status baseState "A" = get_route_status baseState "B" ∧
    get_route_status baseState "A" =
      ((baseState.route.length : Int) -
        (baseState.current_route_round_coords.length : Int),
       (baseState.route.length : Int)) := by
  have h := get_route_status_spec baseState "A" "B"
  exact ⟨h.1, h.2.1 (by decide)⟩

/-- C9: `empty_routequeue` returns `true` exactly when the current round
remainder is non-empty — the opposite of what its name suggests; the embedded
function is pure, so no state is modified. -/
theorem empty_routequeue_spec (s : RouteManagerState) :
    (empty_routequeue s = true ↔ s.current_route_round_coords ≠ []) ∧
    (empty_routequeue s = false ↔ s.current_route_round_coords = []) := by
  cases h : s.current_route_round_coords with
  | nil => simp [empty_routequeue, h]
  | cons a as => simp [empty_routequeue, h]

/-- C9 witness: on `baseState` (non-empty remainder). -/
theorem empty_routequeue_spec_witness :
    (empty_routequeue baseState = true ↔
      baseState.current_route_round_coords ≠ []) ∧
    (empty_routequeue baseState = false ↔
      baseState.current_route_round_coords = []) :=
  empty_routequeue_spec baseState

/-- C10: unregistering an origin that is not registered leaves the whole
state unchanged, yet the `_quit_route()` hook still fires exactly when the
registry is empty and the manager is started. -/
theorem unregister_worker_unknown (s : RouteManagerState) (w : String)
    (h : s.workers_registered.contains w = false) :
    unregister_worker s w =
      Except.ok (s.workers_registered.length == 0 && s.is_started, s) := by
  have h' : w ∉ s.workers_registered := by simpa using h
  simp [unregister_worker, h']

/-- C10 witness: unregistering unknown "X" on a started manager with no
workers shuts it down (`_quit_route` fires) while changing nothing. -/
theorem unregister_worker_unknown_witness :
    unregister_worker c10State "X" = Except.ok (true, c10State) :=
  unregister_worker_unknown c10State "X" rfl
